import Mathlib

/-!
Verification of the price-quotation webhook (src/app.py) against its
natural-language specification.

The embedding below models, faithfully to the source:
- the product catalog (`ProductRow`, loaded rows of listado.csv);
- the similarity scorer `fuzz.partial_ratio` from the rapidfuzz library
  (any 2.x/3.x release; the dependency is unpinned), as the exact rational
  value `100 * (1 - indel_distance / (len1 + len2))` maximised over the
  alignments `_partial_ratio_impl` scans: every full-length window of the
  haystack plus the boundary-overlap alignments against haystack prefixes
  and suffixes shorter than the needle, with the second swapped pass that
  `partial_ratio_alignment` adds for equal-length inputs (rapidfuzz
  returns this value as a float; all comparisons performed by the program
  are against the integer thresholds 80, 90 and 100, far from the rounding
  error of a double, so the rational model is faithful to the observable
  comparisons);
- `search_products` (segment filter, per-row scoring with segment boost,
  threshold, stable descending sort; Python's `list.sort` is stable and
  `reverse=True` keeps ties in original order, which a stable insertion
  sort reproduces exactly);
- the `/cotizar` endpoint body handling (single `consulta` vs list
  `consultas`, validation order, dedup by description, combined sort),
  for JSON-object request bodies, which are the documented shape.
-/

structure ProductRow where
  descripcion : String
  precioContado : String
  precioTarjeta : String
  segmento : String
  deriving DecidableEq, Repr

structure MatchResult where
  descripcion : String
  precio_contado : String
  precio_tarjeta : String
  segmento : String
  score : ℚ
  deriving DecidableEq, Repr

/-- Python's `str.lower()` (the catalog and queries are ASCII text, where
`Char.toLower` agrees with Python), written structurally on the character
list so that concrete instances compute inside the kernel. -/
def strLower (s : String) : String := String.mk (s.data.map Char.toLower)

/-- Python's `str.strip()`: drop whitespace from both ends. -/
def strStrip (s : String) : String :=
  String.mk (((s.data.dropWhile Char.isWhitespace).reverse.dropWhile Char.isWhitespace).reverse)

/-- Length of a longest common subsequence, written with an explicit fuel
argument so that the recursion is structural (the fuel `|x| + |y|` is always
sufficient, see `lcsLenF_fuel`). -/
def lcsLenF : Nat → List Char → List Char → Nat
  | 0, _, _ => 0
  | _ + 1, [], _ => 0
  | _ + 1, _ :: _, [] => 0
  | f + 1, a :: as, b :: bs =>
    if a = b then lcsLenF f as bs + 1
    else max (lcsLenF f (a :: as) bs) (lcsLenF f as (b :: bs))

def lcsLen (x y : List Char) : Nat := lcsLenF (x.length + y.length) x y

/-- Model of `fuzz.ratio`: the Indel-based normalized similarity scaled to 0..100.
`indel_distance = |x| + |y| - 2 * lcs`, so the similarity is
`(2 * lcs) / (|x| + |y|)`. Two empty strings score 100. -/
def fuzzRatio (x y : List Char) : ℚ :=
  if x.length + y.length = 0 then 100
  else 100 * (2 * (lcsLen x y : ℚ)) / ((x.length : ℚ) + (y.length : ℚ))

/-- The alignment windows of `_partial_ratio_impl(x, y)` for needle `x` and
haystack `y` with `|x| <= |y|`, in the source's scan order: the proper
prefixes `y[:i]` for `i = 1 .. |x|-1` (the needle overhangs the left end),
every full-length window `y[i : i+|x|]` for `i = 0 .. |y|-|x|`, and the
proper suffixes `y[i:]` for `i = |y|-|x|+1 .. |y|-1` (overhanging the
right end). -/
def overhangWindows (x y : List Char) : List (List Char) :=
  ((List.range' 1 (x.length - 1)).map (fun i => y.take i)) ++
    ((List.range (y.length - x.length + 1)).map (fun i => (y.drop i).take x.length)) ++
    ((List.range' (y.length - x.length + 1) (x.length - 1)).map (fun i => y.drop i))

/-- Model of rapidfuzz's `_partial_ratio_impl(x, y)`: the best `fuzzRatio`
of the needle `x` against the overhang and full-length windows of `y`,
starting from the initial score 0. The source also skips a window when its
decisive character (the window's last character in the prefix-and-full
loops, its first in the suffix loop) does not occur in `x`, and threads a
running `score_cutoff`; both are maximum-preserving prunings — dropping
the absent character keeps the LCS while a shorter considered window (or
the 0 start) ties or beats the skipped one — except with an empty needle,
where the empty character set makes every loop skip or be empty and the
initial 0 is returned; the `if` mirrors that case. -/
def partialRatioImpl (x y : List Char) : ℚ :=
  if x.isEmpty then 0
  else ((overhangWindows x y).map (fun w => fuzzRatio x w)).foldl max 0

/-- First pass of `partial_ratio_alignment`: the impl runs with the shorter
string as the needle (`if len(s1) <= len(s2)` … else swapped). -/
def partialRatioPass1 (x y : List Char) : ℚ :=
  if x.length ≤ y.length then partialRatioImpl x y else partialRatioImpl y x

/-- Model of `fuzz.partial_ratio` (rapidfuzz): 100 when both strings are
empty; otherwise the first pass with the shorter needle, and — when the
lengths are equal and the first pass did not already reach 100 — a second
pass with the roles swapped, keeping the larger score
(`if res2.score > res.score`, i.e. the max of the two passes). -/
def fuzzPartialRatio (a b : String) : ℚ :=
  if a.toList.isEmpty && b.toList.isEmpty then 100
  else if partialRatioPass1 a.toList b.toList ≠ 100 ∧ a.toList.length = b.toList.length then
    max (partialRatioPass1 a.toList b.toList) (partialRatioImpl b.toList a.toList)
  else partialRatioPass1 a.toList b.toList

/-- Python truthiness of the optional segment argument of `search_products`
(`if segmento:`): `None` and the empty string are falsy. -/
def segTruthy : Option String → Bool
  | none => false
  | some s => !(s == "")

/-- The rows surviving the segment filter of `search_products`: when the
segment argument is truthy, keep the rows whose `SEGMENTO` equals it
case-insensitively; otherwise the whole catalog. -/
def segmentFiltered (df : List ProductRow) (segmento : Option String) : List ProductRow :=
  match segmento with
  | some s =>
    if s == "" then df else df.filter (fun r => strLower r.segmento == strLower s)
  | none => df

/-- Per-row final score of `search_products`, parametric in the scorer: the
code lowercases both sides, takes the max of the description and segment
scores, and boosts by 10 (capped at 100) when the segment score is at
least 80. -/
def finalScoreWith (sc : String → String → ℚ) (query : String) (row : ProductRow) : ℚ :=
  let desc_score := sc (strLower query) (strLower row.descripcion)
  let segment_score := sc (strLower query) (strLower row.segmento)
  let base := max desc_score segment_score
  if 80 ≤ segment_score then min 100 (base + 10) else base

def mkResult (row : ProductRow) (score : ℚ) : MatchResult :=
  ⟨row.descripcion, row.precioContado, row.precioTarjeta, row.segmento, score⟩

/-- The kept rows of `search_products`, in catalog order: rows whose final
score reaches `min_score`, turned into result records. -/
def keptRowsWith (sc : String → String → ℚ) (query : String) (min_score : ℚ)
    (rows : List ProductRow) : List MatchResult :=
  rows.filterMap (fun row =>
    if min_score ≤ finalScoreWith sc query row
    then some (mkResult row (finalScoreWith sc query row)) else none)

/-- Insert into a descending-sorted list, after every element of strictly
greater score and before every element of equal or smaller score. -/
def insertDesc (r : MatchResult) : List MatchResult → List MatchResult
  | [] => [r]
  | x :: xs => if x.score ≤ r.score then r :: x :: xs else x :: insertDesc r xs

/-- Stable descending sort by score: the model of Python's stable
`results.sort(key=lambda x: x['score'], reverse=True)`. -/
def sortByScoreDesc : List MatchResult → List MatchResult
  | [] => []
  | r :: rs => insertDesc r (sortByScoreDesc rs)

/-- Model of `search_products(query, segmento, min_score)` over an optional catalog
(`products_df`), parametric in the scorer. A missing catalog raises
`ValueError("Products not loaded")`; a truthy segment with no matching rows
returns the empty list before any scoring. -/
def searchProductsWith (sc : String → String → ℚ) (products : Option (List ProductRow))
    (query : String) (segmento : Option String) (min_score : ℚ) :
    Except String (List MatchResult) :=
  match products with
  | none => Except.error "Products not loaded"
  | some df =>
    if segTruthy segmento && (segmentFiltered df segmento).isEmpty then Except.ok []
    else Except.ok (sortByScoreDesc (keptRowsWith sc query min_score (segmentFiltered df segmento)))

/-- Model of `search_products` as in the source: the scorer is `fuzz.partial_ratio`
and the score threshold defaults to 90. -/
def searchProducts (products : Option (List ProductRow)) (query : String)
    (segmento : Option String := none) (min_score : ℚ := 90) :
    Except String (List MatchResult) :=
  searchProductsWith fuzzPartialRatio products query segmento min_score

/-- JSON values, as far as the endpoint inspects them. -/
inductive Json where
  | null
  | bool (b : Bool)
  | num (q : ℚ)
  | str (s : String)
  | arr (xs : List Json)
  | obj (fields : List (String × Json))

/-- Key lookup in a JSON object (`k in data` / `data[k]`). -/
def jsonLookup : List (String × Json) → String → Option Json
  | [], _ => none
  | (k2, v) :: rest, k => if k2 = k then some v else jsonLookup rest k

/-- Model of `data.get(k, None)`: Python `None` is modelled by `Json.null`. -/
def pyGet (fields : List (String × Json)) (k : String) : Json :=
  (jsonLookup fields k).getD Json.null

/-- Python truthiness of a JSON value. -/
def pyTruthy : Json → Bool
  | Json.null => false
  | Json.bool b => b
  | Json.num q => !(q == 0)
  | Json.str s => !(s == "")
  | Json.arr xs => !xs.isEmpty
  | Json.obj fs => !fs.isEmpty

/-- The check `not consulta or not isinstance(consulta, str) or not consulta.strip()`
fails exactly when the value is a string with non-whitespace content. -/
def isValidConsulta : Json → Bool
  | Json.str s => !(strStrip s == "")
  | _ => false

/-- The check `segmento is not None and (not isinstance(segmento, str) or not
segmento.strip())` fails; valid means absent/None or a non-blank string. -/
def isValidSegmento : Json → Bool
  | Json.null => true
  | Json.str s => !(strStrip s == "")
  | _ => false

/-- Model of `segmento.strip() if segmento else None`, for an already validated
segment value (a non-blank string or None). -/
def segArg : Json → Option String
  | Json.str s => if s == "" then none else some (strStrip s)
  | _ => none

/-- The underlying string of a validated `consulta` value. -/
def jsonStrVal : Json → String
  | Json.str s => s
  | _ => ""

def errBody (msg : String) : Json := Json.obj [("error", Json.str msg)]

def msgBadConsulta : String := "Field \x27consulta\x27 must be a non-empty string"

def msgBadSegmento : String :=
  "Field \x27segmento\x27 must be a non-empty string when provided"

def msgBadConsultas : String := "Field \x27consultas\x27 must be a non-empty array"

def msgMissingField : String :=
  "Missing required field. Use \x27consulta\x27 for single search or \x27consultas\x27 for multiple searches"

def itemMsgNotObj (i : Nat) : String :=
  "Item " ++ toString (i + 1) ++ " in \x27consultas\x27 must be an object with \x27consulta\x27 field"

def itemMsgMissing (i : Nat) : String :=
  "Item " ++ toString (i + 1) ++ " in \x27consultas\x27 is missing required field \x27consulta\x27"

def itemMsgBadConsulta (i : Nat) : String :=
  "Field \x27consulta\x27 in item " ++ toString (i + 1) ++ " must be a non-empty string"

def itemMsgBadSegmento (i : Nat) : String :=
  "Field \x27segmento\x27 in item " ++ toString (i + 1) ++ " must be a non-empty string when provided"

def resultJson (r : MatchResult) : Json :=
  Json.obj [("descripcion", Json.str r.descripcion),
    ("precio_contado", Json.str r.precio_contado),
    ("precio_tarjeta", Json.str r.precio_tarjeta),
    ("segmento", Json.str r.segmento),
    ("score", Json.num r.score)]

/-- The per-query record: `{consulta, resultados, total_encontrados}` plus
`segmento_filtrado` exactly when the segment value is truthy. Used both for
the single-query response and for each entry of `consultas_procesadas`. -/
def singleResponse (consulta segmento : Json) (results : List MatchResult) : Json :=
  Json.obj ([("consulta", consulta),
    ("resultados", Json.arr (results.map resultJson)),
    ("total_encontrados", Json.num (results.length : ℚ))] ++
    (if pyTruthy segmento then [("segmento_filtrado", segmento)] else []))

/-- The dedup loop of the multi-query branch: `seen_descriptions` is the set
of descriptions already emitted (modelled as a list with membership). -/
def dedupGo (seen : List String) : List MatchResult → List MatchResult
  | [] => []
  | r :: rs =>
    if r.descripcion ∈ seen then dedupGo seen rs
    else r :: dedupGo (r.descripcion :: seen) rs

def dedupByDescription (l : List MatchResult) : List MatchResult := dedupGo [] l

/-- The `for i, item in enumerate(consultas)` loop: validate each item in
order, search it, and accumulate `(consultas_procesadas, all_results)`; the
first validation failure (or a search failure) aborts with the response the
endpoint returns. -/
def processItems (products : Option (List ProductRow)) :
    List Json → Nat → Except (Nat × Json) (List Json × List MatchResult)
  | [], _ => Except.ok ([], [])
  | item :: rest, i =>
    match item with
    | Json.obj fields =>
      match jsonLookup fields "consulta" with
      | none => Except.error (400, errBody (itemMsgMissing i))
      | some consulta =>
        if isValidConsulta consulta then
          if isValidSegmento (pyGet fields "segmento") then
            match searchProducts products (strStrip (jsonStrVal consulta))
                (segArg (pyGet fields "segmento")) 90 with
            | Except.error e => Except.error (500, errBody ("Data error: " ++ e))
            | Except.ok item_results =>
              match processItems products rest (i + 1) with
              | Except.error r => Except.error r
              | Except.ok (infos, acc) =>
                Except.ok (singleResponse consulta (pyGet fields "segmento") item_results :: infos,
                  item_results ++ acc)
          else Except.error (400, errBody (itemMsgBadSegmento i))
        else Except.error (400, errBody (itemMsgBadConsulta i))
    | _ => Except.error (400, errBody (itemMsgNotObj i))

/-- The `POST /cotizar` handler on a parsed JSON object body, returning
`(status, body)`. A `ValueError` from `search_products` is rendered as
`500 {"error": "Data error: ..."}` by the handler's `except ValueError`. -/
def cotizar (products : Option (List ProductRow)) (data : List (String × Json)) :
    Nat × Json :=
  match jsonLookup data "consulta" with
  | some consulta =>
    if isValidConsulta consulta then
      if isValidSegmento (pyGet data "segmento") then
        match searchProducts products (strStrip (jsonStrVal consulta))
            (segArg (pyGet data "segmento")) 90 with
        | Except.error e => (500, errBody ("Data error: " ++ e))
        | Except.ok results => (200, singleResponse consulta (pyGet data "segmento") results)
      else (400, errBody msgBadSegmento)
    else (400, errBody msgBadConsulta)
  | none =>
    match jsonLookup data "consultas" with
    | some (Json.arr items) =>
      if items.isEmpty then (400, errBody msgBadConsultas)
      else
        match processItems products items 0 with
        | Except.error resp => resp
        | Except.ok (infos, all_results) =>
          (200, Json.obj [("consultas_procesadas", Json.arr infos),
            ("resultados_combinados",
              Json.arr ((sortByScoreDesc (dedupByDescription all_results)).map resultJson)),
            ("total_consultas", Json.num (items.length : ℚ)),
            ("total_encontrados_combinados",
              Json.num ((sortByScoreDesc (dedupByDescription all_results)).length : ℚ))])
    | some _ => (400, errBody msgBadConsultas)
    | none => (400, errBody msgMissingField)

/-- Keys of a JSON object, in order. -/
def jsonKeys : Json → List String
  | Json.obj fs => fs.map Prod.fst
  | _ => []

/-- Remove every binding of key `k` from an object body. -/
def dropKey (k : String) (data : List (String × Json)) : List (String × Json) :=
  data.filter (fun kv => !(kv.1 == k))

/-- Fields of a JSON object item (`[]` for non-objects). -/
def itemFields : Json → List (String × Json)
  | Json.obj fs => fs
  | _ => []

/-- An item of a `consultas` list passes all of the loop's checks. -/
def itemValid (item : Json) : Bool :=
  match item with
  | Json.obj fields =>
    match jsonLookup fields "consulta" with
    | none => false
    | some c => isValidConsulta c && isValidSegmento (pyGet fields "segmento")
  | _ => false

/-- The matches the loop computes for a (valid) item. -/
def itemSearch (df : List ProductRow) (item : Json) : List MatchResult :=
  match searchProducts (some df) (strStrip (jsonStrVal (pyGet (itemFields item) "consulta")))
      (segArg (pyGet (itemFields item) "segmento")) 90 with
  | Except.ok r => r
  | Except.error _ => []

/-- The `consulta_info` record the loop appends for a (valid) item. -/
def itemInfo (df : List ProductRow) (item : Json) : Json :=
  singleResponse (pyGet (itemFields item) "consulta") (pyGet (itemFields item) "segmento")
    (itemSearch df item)

/-- The validation message the loop produces for an invalid item at 0-based
index `i`; every branch names the 1-based position `i + 1`. -/
def itemErrorMsg (i : Nat) (item : Json) : String :=
  match item with
  | Json.obj fields =>
    match jsonLookup fields "consulta" with
    | none => itemMsgMissing i
    | some c =>
      if isValidConsulta c then itemMsgBadSegmento i else itemMsgBadConsulta i
  | _ => itemMsgNotObj i

/-- A constant scorer used to instantiate the scorer-generic theorems on
concrete inputs. -/
def scW : String → String → ℚ := fun _ _ => 95

/-- A one-row fixture catalog used by the witnesses. -/
def rowW : ProductRow := ⟨"a", "1", "2", "b"⟩

/-- Fixture: two identical valid sub-queries, to exercise dedup. -/
def itemsW : List Json :=
  [Json.obj [("consulta", Json.str "a")], Json.obj [("consulta", Json.str "a")]]

/-- Fixture: a body carrying both the single and the list field. -/
def dataW10 : List (String × Json) :=
  [("consulta", Json.str "a"),
    ("consultas", Json.arr [Json.obj [("consulta", Json.str "zzz")]])]

theorem lcsLenF_symm (f : Nat) : ∀ x y, lcsLenF f x y = lcsLenF f y x := by
  induction f with
  | zero => intro x y; rfl
  | succ f ih =>
    intro x y
    match x, y with
    | [], [] => rfl
    | [], _ :: _ => rfl
    | _ :: _, [] => rfl
    | a :: as, b :: bs =>
      simp only [lcsLenF]
      by_cases h : a = b
      · subst h
        rw [if_pos rfl, if_pos rfl, ih as bs]
      · rw [if_neg h, if_neg (fun hh => h hh.symm), ih (a :: as) bs, ih as (b :: bs),
          Nat.max_comm]

/-- With fuel at least `|x| + |y|` the fuel never runs out, so `lcsLenF` is
independent of the exact fuel value: the fuel formulation in `lcsLen`
computes the true longest-common-subsequence length. -/
theorem lcsLenF_stable (f : Nat) : ∀ (g : Nat) (x y : List Char),
    x.length + y.length ≤ f → x.length + y.length ≤ g →
    lcsLenF f x y = lcsLenF g x y := by
  induction f with
  | zero =>
    intro g x y hf _
    match x, y with
    | [], [] =>
      match g with
      | 0 => rfl
      | _ + 1 => rfl
    | [], _ :: _ => simp at hf
    | _ :: _, _ => simp at hf
  | succ f ih =>
    intro g x y hf hg
    match x, y with
    | [], [] =>
      match g with
      | 0 => rfl
      | _ + 1 => rfl
    | [], _ :: _ =>
      match g with
      | 0 => simp at hg
      | _ + 1 => rfl
    | _ :: _, [] =>
      match g with
      | 0 => simp at hg
      | _ + 1 => rfl
    | a :: as, b :: bs =>
      match g with
      | 0 => simp at hg
      | g + 1 =>
        simp only [List.length_cons] at hf hg
        simp only [lcsLenF]
        rw [ih g as bs (by omega) (by omega),
          ih g (a :: as) bs (by simp; omega) (by simp; omega),
          ih g as (b :: bs) (by simp; omega) (by simp; omega)]

theorem lcsLenF_fuel (f : Nat) (x y : List Char) (h : x.length + y.length ≤ f) :
    lcsLenF f x y = lcsLen x y :=
  lcsLenF_stable f (x.length + y.length) x y h le_rfl

theorem lcsLenF_le_left (f : Nat) : ∀ x y, lcsLenF f x y ≤ x.length := by
  induction f with
  | zero => intro x y; exact Nat.zero_le _
  | succ f ih =>
    intro x y
    match x, y with
    | [], _ => exact Nat.le_refl 0
    | _ :: _, [] => exact Nat.zero_le _
    | a :: as, b :: bs =>
      simp only [lcsLenF]
      by_cases h : a = b
      · rw [if_pos h]
        exact Nat.succ_le_succ (ih as bs)
      · rw [if_neg h]
        exact Nat.max_le.mpr ⟨ih (a :: as) bs, Nat.le_trans (ih as (b :: bs)) (Nat.le_succ _)⟩

theorem lcsLenF_le_right (f : Nat) : ∀ x y, lcsLenF f x y ≤ y.length := by
  intro x y
  rw [lcsLenF_symm]
  exact lcsLenF_le_left f y x

theorem lcsLen_symm (x y : List Char) : lcsLen x y = lcsLen y x := by
  unfold lcsLen
  rw [Nat.add_comm x.length y.length]
  exact lcsLenF_symm _ x y

theorem fuzzRatio_symm (x y : List Char) : fuzzRatio x y = fuzzRatio y x := by
  unfold fuzzRatio
  rw [Nat.add_comm x.length y.length, lcsLen_symm, add_comm ((x.length : ℚ)) ((y.length : ℚ))]

theorem fuzzRatio_nonneg (x y : List Char) : 0 ≤ fuzzRatio x y := by
  unfold fuzzRatio
  split
  · norm_num
  · next h =>
    have hx : 0 < (x.length : ℚ) + (y.length : ℚ) := by
      have : 0 < x.length + y.length := Nat.pos_of_ne_zero h
      exact_mod_cast this
    positivity

theorem fuzzRatio_le_100 (x y : List Char) : fuzzRatio x y ≤ 100 := by
  unfold fuzzRatio
  split
  · norm_num
  · next h =>
    have hpos : 0 < (x.length : ℚ) + (y.length : ℚ) := by
      have : 0 < x.length + y.length := Nat.pos_of_ne_zero h
      exact_mod_cast this
    rw [div_le_iff₀ hpos]
    have hle : (2 * (lcsLen x y : ℚ)) ≤ (x.length : ℚ) + (y.length : ℚ) := by
      have h1 : lcsLen x y ≤ x.length := lcsLenF_le_left _ x y
      have h2 : lcsLen x y ≤ y.length := lcsLenF_le_right _ x y
      have : 2 * lcsLen x y ≤ x.length + y.length := by omega
      exact_mod_cast this
    nlinarith

theorem foldl_max_bounds (l : List ℚ) : ∀ init : ℚ, 0 ≤ init → init ≤ 100 →
    (∀ q ∈ l, 0 ≤ q ∧ q ≤ 100) → 0 ≤ l.foldl max init ∧ l.foldl max init ≤ 100 := by
  induction l with
  | nil => intro init h0 h1 _; exact ⟨h0, h1⟩
  | cons q rest ih =>
    intro init h0 h1 hq
    have hq0 := hq q (List.mem_cons_self q rest)
    refine ih (max init q) (le_trans h0 (le_max_left _ _)) (max_le h1 hq0.2) ?_
    intro p hp
    exact hq p (List.mem_cons_of_mem _ hp)

theorem partialRatioImpl_nonneg (x y : List Char) : 0 ≤ partialRatioImpl x y := by
  unfold partialRatioImpl
  split
  · norm_num
  · have := foldl_max_bounds ((overhangWindows x y).map (fun w => fuzzRatio x w)) 0
      le_rfl (by norm_num) ?_
    · exact this.1
    · intro q hq
      obtain ⟨w, _, rfl⟩ := List.mem_map.mp hq
      exact ⟨fuzzRatio_nonneg _ _, fuzzRatio_le_100 _ _⟩

theorem partialRatioImpl_le_100 (x y : List Char) : partialRatioImpl x y ≤ 100 := by
  unfold partialRatioImpl
  split
  · norm_num
  · have := foldl_max_bounds ((overhangWindows x y).map (fun w => fuzzRatio x w)) 0
      le_rfl (by norm_num) ?_
    · exact this.2
    · intro q hq
      obtain ⟨w, _, rfl⟩ := List.mem_map.mp hq
      exact ⟨fuzzRatio_nonneg _ _, fuzzRatio_le_100 _ _⟩

theorem partialRatioPass1_nonneg (x y : List Char) : 0 ≤ partialRatioPass1 x y := by
  unfold partialRatioPass1
  split
  · exact partialRatioImpl_nonneg _ _
  · exact partialRatioImpl_nonneg _ _

theorem partialRatioPass1_le_100 (x y : List Char) : partialRatioPass1 x y ≤ 100 := by
  unfold partialRatioPass1
  split
  · exact partialRatioImpl_le_100 _ _
  · exact partialRatioImpl_le_100 _ _

theorem partialRatioPass1_symm_of_ne (x y : List Char) (h : x.length ≠ y.length) :
    partialRatioPass1 x y = partialRatioPass1 y x := by
  unfold partialRatioPass1
  rcases lt_or_gt_of_ne h with hlt | hgt
  · rw [if_pos hlt.le, if_neg (not_le.mpr hlt)]
  · rw [if_neg (not_le.mpr hgt), if_pos hgt.le]

theorem fuzzPartialRatio_nonneg (a b : String) : 0 ≤ fuzzPartialRatio a b := by
  unfold fuzzPartialRatio
  split
  · norm_num
  · split
    · exact le_trans (partialRatioPass1_nonneg _ _) (le_max_left _ _)
    · exact partialRatioPass1_nonneg _ _

theorem fuzzPartialRatio_le_100 (a b : String) : fuzzPartialRatio a b ≤ 100 := by
  unfold fuzzPartialRatio
  split
  · norm_num
  · split
    · exact max_le (partialRatioPass1_le_100 _ _) (partialRatioImpl_le_100 _ _)
    · exact partialRatioPass1_le_100 _ _

theorem fuzzPartialRatio_symm (a b : String) :
    fuzzPartialRatio a b = fuzzPartialRatio b a := by
  unfold fuzzPartialRatio
  by_cases hab : (a.toList.isEmpty && b.toList.isEmpty) = true
  · rw [if_pos hab, if_pos (by rwa [Bool.and_comm] at hab)]
  · have hba : ¬ (b.toList.isEmpty && a.toList.isEmpty) = true := by
      intro h
      exact hab (by rwa [Bool.and_comm] at h)
    rw [if_neg hab, if_neg hba]
    by_cases hlen : a.toList.length = b.toList.length
    · have hp1 : partialRatioPass1 a.toList b.toList = partialRatioImpl a.toList b.toList := by
        unfold partialRatioPass1
        rw [if_pos (le_of_eq hlen)]
      have hp2 : partialRatioPass1 b.toList a.toList = partialRatioImpl b.toList a.toList := by
        unfold partialRatioPass1
        rw [if_pos (le_of_eq hlen.symm)]
      rw [hp1, hp2]
      have hp : partialRatioImpl a.toList b.toList ≤ 100 := partialRatioImpl_le_100 _ _
      have hq : partialRatioImpl b.toList a.toList ≤ 100 := partialRatioImpl_le_100 _ _
      by_cases hp100 : partialRatioImpl a.toList b.toList = 100
      · rw [if_neg (fun h => h.1 hp100)]
        by_cases hq100 : partialRatioImpl b.toList a.toList = 100
        · rw [if_neg (fun h => h.1 hq100), hp100, hq100]
        · rw [if_pos ⟨hq100, hlen.symm⟩, hp100]
          exact (max_eq_right (hp100 ▸ hq)).symm
      · rw [if_pos ⟨hp100, hlen⟩]
        by_cases hq100 : partialRatioImpl b.toList a.toList = 100
        · rw [if_neg (fun h => h.1 hq100), hq100]
          exact max_eq_right (hq100 ▸ hp)
        · rw [if_pos ⟨hq100, hlen.symm⟩]
          exact max_comm _ _
    · rw [if_neg (fun h => hlen h.2), if_neg (fun h => hlen (Eq.symm h.2))]
      exact partialRatioPass1_symm_of_ne _ _ hlen

theorem insertDesc_perm (r : MatchResult) (l : List MatchResult) :
    List.Perm (insertDesc r l) (r :: l) := by
  induction l with
  | nil => exact List.Perm.refl _
  | cons x xs ih =>
    unfold insertDesc
    split
    · exact List.Perm.refl _
    · exact ((ih.cons x).trans (List.Perm.swap r x xs))

theorem sortByScoreDesc_perm (l : List MatchResult) :
    List.Perm (sortByScoreDesc l) l := by
  induction l with
  | nil => exact List.Perm.refl _
  | cons r rs ih => exact (insertDesc_perm r (sortByScoreDesc rs)).trans (ih.cons r)

theorem insertDesc_pairwise (r : MatchResult) (l : List MatchResult)
    (h : l.Pairwise (fun a b => b.score ≤ a.score)) :
    (insertDesc r l).Pairwise (fun a b => b.score ≤ a.score) := by
  induction l with
  | nil => exact List.pairwise_singleton _ r
  | cons x xs ih =>
    unfold insertDesc
    split
    · next hle =>
      refine List.Pairwise.cons ?_ h
      intro b hb
      rcases List.mem_cons.mp hb with rfl | hb
      · exact hle
      · exact le_trans (List.rel_of_pairwise_cons h hb) hle
    · next hlt =>
      have hx : ∀ b ∈ insertDesc r xs, b.score ≤ x.score := by
        intro b hb
        rcases List.mem_cons.mp ((insertDesc_perm r xs).mem_iff.mp hb) with rfl | hb2
        · exact le_of_not_le hlt
        · exact List.rel_of_pairwise_cons h hb2
      exact List.Pairwise.cons hx (ih (List.Pairwise.sublist (List.sublist_cons_self x xs) h))

theorem sortByScoreDesc_sorted (l : List MatchResult) :
    (sortByScoreDesc l).Pairwise (fun a b => b.score ≤ a.score) := by
  induction l with
  | nil => exact List.Pairwise.nil
  | cons r rs ih => exact insertDesc_pairwise r (sortByScoreDesc rs) ih

theorem insertDesc_filter_score (s : ℚ) (r : MatchResult) (l : List MatchResult) :
    (insertDesc r l).filter (fun x => decide (x.score = s)) =
      if r.score = s then r :: l.filter (fun x => decide (x.score = s))
      else l.filter (fun x => decide (x.score = s)) := by
  induction l with
  | nil =>
    unfold insertDesc
    by_cases h : r.score = s
    · simp [List.filter, h]
    · simp [List.filter, h]
  | cons x xs ih =>
    unfold insertDesc
    split
    · next hle =>
      by_cases h : r.score = s
      · simp [List.filter, h]
      · simp [List.filter, h]
    · next hlt =>
      have hxr : r.score < x.score := lt_of_not_le hlt
      by_cases h : r.score = s
      · have hx : ¬ x.score = s := by
          intro he
          rw [← h] at he
          exact absurd he (ne_of_gt hxr)
        simp [List.filter_cons, ih, h, hx]
      · by_cases hx : x.score = s
        · simp [List.filter_cons, ih, h, hx]
        · simp [List.filter_cons, ih, h, hx]

/-- Stability of the sort: among results of any fixed score, the sorted list
keeps exactly the original order. -/
theorem sortByScoreDesc_stable (s : ℚ) (l : List MatchResult) :
    (sortByScoreDesc l).filter (fun x => decide (x.score = s)) =
      l.filter (fun x => decide (x.score = s)) := by
  induction l with
  | nil => rfl
  | cons r rs ih =>
    show (insertDesc r (sortByScoreDesc rs)).filter _ = _
    rw [insertDesc_filter_score, ih]
    by_cases h : r.score = s
    · simp [List.filter_cons, h]
    · simp [List.filter_cons, h]

theorem searchProductsWith_some (sc : String → String → ℚ) (df : List ProductRow)
    (query : String) (segmento : Option String) (ms : ℚ) :
    searchProductsWith sc (some df) query segmento ms =
      if segTruthy segmento && (segmentFiltered df segmento).isEmpty then Except.ok []
      else Except.ok (sortByScoreDesc (keptRowsWith sc query ms (segmentFiltered df segmento))) :=
  rfl

theorem searchProductsWith_some_ok (sc : String → String → ℚ) (df : List ProductRow)
    (query : String) (segmento : Option String) (ms : ℚ) :
    ∃ res, searchProductsWith sc (some df) query segmento ms = Except.ok res := by
  rw [searchProductsWith_some]
  split
  · exact ⟨[], rfl⟩
  · exact ⟨_, rfl⟩

theorem mkResult_score (row : ProductRow) (s : ℚ) : (mkResult row s).score = s := rfl

theorem mkResult_segmento (row : ProductRow) (s : ℚ) :
    (mkResult row s).segmento = row.segmento := rfl

theorem mem_keptRowsWith {sc : String → String → ℚ} {query : String} {ms : ℚ}
    {rows : List ProductRow} {r : MatchResult} :
    r ∈ keptRowsWith sc query ms rows ↔
      ∃ row ∈ rows, ms ≤ finalScoreWith sc query row ∧
        r = mkResult row (finalScoreWith sc query row) := by
  unfold keptRowsWith
  rw [List.mem_filterMap]
  constructor
  · rintro ⟨row, hrow, hf⟩
    by_cases hc : ms ≤ finalScoreWith sc query row
    · rw [if_pos hc] at hf
      exact ⟨row, hrow, hc, (Option.some_inj.mp hf).symm⟩
    · rw [if_neg hc] at hf
      cases hf
  · rintro ⟨row, hrow, hc, rfl⟩
    exact ⟨row, hrow, by rw [if_pos hc]⟩

theorem dedupGo_sound (l : List MatchResult) : ∀ seen : List String,
    (dedupGo seen l).Pairwise (fun a b => a.descripcion ≠ b.descripcion) ∧
    ∀ r ∈ dedupGo seen l, r.descripcion ∉ seen := by
  induction l with
  | nil =>
    intro seen
    exact ⟨List.Pairwise.nil, by intro r hr; cases hr⟩
  | cons r rs ih =>
    intro seen
    unfold dedupGo
    split
    · exact (ih seen)
    · next hns =>
      refine ⟨?_, ?_⟩
      · refine List.Pairwise.cons ?_ (ih (r.descripcion :: seen)).1
        intro b hb he
        exact (ih (r.descripcion :: seen)).2 b hb (he ▸ List.mem_cons_self _ _)
      · intro x hx
        rcases List.mem_cons.mp hx with rfl | hx2
        · exact hns
        · intro hmem
          exact (ih (r.descripcion :: seen)).2 x hx2 (List.mem_cons_of_mem _ hmem)

theorem dedupByDescription_pairwise (l : List MatchResult) :
    (dedupByDescription l).Pairwise (fun a b => a.descripcion ≠ b.descripcion) :=
  (dedupGo_sound l []).1

theorem sortByScoreDesc_pairwise_ne (l : List MatchResult)
    (h : l.Pairwise (fun a b => a.descripcion ≠ b.descripcion)) :
    (sortByScoreDesc l).Pairwise (fun a b => a.descripcion ≠ b.descripcion) :=
  ((sortByScoreDesc_perm l).pairwise_iff (fun hxy => Ne.symm hxy)).mpr h

theorem singleResponse_keys (c seg : Json) (results : List MatchResult) :
    jsonKeys (singleResponse c seg results) =
      ["consulta", "resultados", "total_encontrados"] ++
        (if pyTruthy seg then ["segmento_filtrado"] else []) := by
  unfold singleResponse jsonKeys
  by_cases h : pyTruthy seg
  · simp [h]
  · simp [h]

theorem processItems_ok (df : List ProductRow) : ∀ (items : List Json) (i : Nat),
    (∀ it ∈ items, itemValid it = true) →
    processItems (some df) items i =
      Except.ok (items.map (fun it => itemInfo df it),
        (items.map (fun it => itemSearch df it)).flatten) := by
  intro items
  induction items with
  | nil => intro i _; rfl
  | cons item rest ih =>
    intro i hv
    have hvi := hv item (List.mem_cons_self _ _)
    have hvr : ∀ it ∈ rest, itemValid it = true :=
      fun it hit => hv it (List.mem_cons_of_mem _ hit)
    cases item with
    | obj fields =>
      cases hl : jsonLookup fields "consulta" with
      | none => simp [itemValid, hl] at hvi
      | some c =>
        have hcs : isValidConsulta c = true ∧
            isValidSegmento (pyGet fields "segmento") = true := by
          simpa [itemValid, hl, Bool.and_eq_true] using hvi
        obtain ⟨hc, hs⟩ := hcs
        obtain ⟨r, hr⟩ := searchProductsWith_some_ok fuzzPartialRatio df
          (strStrip (jsonStrVal c)) (segArg (pyGet fields "segmento")) 90
        have hsearch : searchProducts (some df) (strStrip (jsonStrVal c))
            (segArg (pyGet fields "segmento")) 90 = Except.ok r := hr
        have hpg : pyGet fields "consulta" = c := by
          unfold pyGet
          rw [hl]
          rfl
        have hitemSearch : itemSearch df (Json.obj fields) = r := by
          unfold itemSearch
          simp only [itemFields, hpg]
          rw [hsearch]
        have hitemInfo : itemInfo df (Json.obj fields) =
            singleResponse c (pyGet fields "segmento") r := by
          unfold itemInfo
          simp only [itemFields, hpg, hitemSearch]
        simp only [processItems, hl, hc, hs, if_true, hsearch, ih (i + 1) hvr,
          List.map_cons, List.flatten_cons, hitemInfo, hitemSearch]
    | null => simp [itemValid] at hvi
    | bool b => simp [itemValid] at hvi
    | num q => simp [itemValid] at hvi
    | str s => simp [itemValid] at hvi
    | arr xs => simp [itemValid] at hvi

theorem processItems_append_invalid (df : List ProductRow) :
    ∀ (pre : List Json) (i : Nat) (bad : Json) (rest : List Json),
    (∀ it ∈ pre, itemValid it = true) → itemValid bad = false →
    processItems (some df) (pre ++ bad :: rest) i =
      Except.error (400, errBody (itemErrorMsg (i + pre.length) bad)) := by
  intro pre
  induction pre with
  | nil =>
    intro i bad rest _ hbad
    simp only [List.nil_append, List.length_nil, Nat.add_zero]
    cases bad with
    | obj fields =>
      cases hl : jsonLookup fields "consulta" with
      | none => simp [processItems, hl, itemErrorMsg]
      | some c =>
        cases hc : isValidConsulta c with
        | false => simp [processItems, hl, hc, itemErrorMsg]
        | true =>
          have hs : isValidSegmento (pyGet fields "segmento") = false := by
            have := hbad
            simp [itemValid, hl, hc] at this
            exact this
          simp [processItems, hl, hc, hs, itemErrorMsg]
    | null => simp [processItems, itemErrorMsg]
    | bool b => simp [processItems, itemErrorMsg]
    | num q => simp [processItems, itemErrorMsg]
    | str s => simp [processItems, itemErrorMsg]
    | arr xs => simp [processItems, itemErrorMsg]
  | cons p ps ih =>
    intro i bad rest hpre hbad
    have hvp := hpre p (List.mem_cons_self _ _)
    have hvps : ∀ it ∈ ps, itemValid it = true :=
      fun it hit => hpre it (List.mem_cons_of_mem _ hit)
    cases p with
    | obj fields =>
      cases hl : jsonLookup fields "consulta" with
      | none => simp [itemValid, hl] at hvp
      | some c =>
        have hcs : isValidConsulta c = true ∧
            isValidSegmento (pyGet fields "segmento") = true := by
          simpa [itemValid, hl, Bool.and_eq_true] using hvp
        obtain ⟨hc, hs⟩ := hcs
        obtain ⟨r, hr⟩ := searchProductsWith_some_ok fuzzPartialRatio df
          (strStrip (jsonStrVal c)) (segArg (pyGet fields "segmento")) 90
        have hsearch : searchProducts (some df) (strStrip (jsonStrVal c))
            (segArg (pyGet fields "segmento")) 90 = Except.ok r := hr
        have hlen : i + 1 + ps.length = i + (ps.length + 1) := by omega
        simp only [List.cons_append, processItems, hl, hc, hs, if_true, hsearch,
          List.append_eq, ih (i + 1) bad rest hvps hbad, hlen, List.length_cons]
    | null => simp [itemValid] at hvp
    | bool b => simp [itemValid] at hvp
    | num q => simp [itemValid] at hvp
    | str s => simp [itemValid] at hvp
    | arr xs => simp [itemValid] at hvp

theorem cotizar_single_mode (df : List ProductRow) (data : List (String × Json))
    (c : Json) (hc : jsonLookup data "consulta" = some c)
    (hvc : isValidConsulta c = true)
    (hvs : isValidSegmento (pyGet data "segmento") = true) :
    (cotizar (some df) data).1 = 200 ∧
    jsonKeys (cotizar (some df) data).2 =
      ["consulta", "resultados", "total_encontrados"] ++
        (if pyTruthy (pyGet data "segmento") then ["segmento_filtrado"] else []) := by
  obtain ⟨r, hr⟩ := searchProductsWith_some_ok fuzzPartialRatio df
    (strStrip (jsonStrVal c)) (segArg (pyGet data "segmento")) 90
  have hsearch : searchProducts (some df) (strStrip (jsonStrVal c))
      (segArg (pyGet data "segmento")) 90 = Except.ok r := hr
  constructor
  · simp only [cotizar, hc, hvc, hvs, if_true, hsearch]
  · simp only [cotizar, hc, hvc, hvs, if_true, hsearch]
    exact singleResponse_keys c (pyGet data "segmento") r

theorem cotizar_multi_mode (df : List ProductRow) (data : List (String × Json))
    (items : List Json) (h1 : jsonLookup data "consulta" = none)
    (h2 : jsonLookup data "consultas" = some (Json.arr items))
    (hne : items ≠ []) (hv : ∀ it ∈ items, itemValid it = true) :
    cotizar (some df) data =
      (200, Json.obj [("consultas_procesadas",
          Json.arr (items.map (fun it => itemInfo df it))),
        ("resultados_combinados", Json.arr ((sortByScoreDesc (dedupByDescription
          ((items.map (fun it => itemSearch df it)).flatten))).map resultJson)),
        ("total_consultas", Json.num (items.length : ℚ)),
        ("total_encontrados_combinados", Json.num ((sortByScoreDesc (dedupByDescription
          ((items.map (fun it => itemSearch df it)).flatten))).length : ℚ))]) := by
  have hemp : items.isEmpty = false := by
    cases items with
    | nil => exact absurd rfl hne
    | cons a l => rfl
  simp only [cotizar, h1, h2, hemp, Bool.false_eq_true, if_false,
    processItems_ok df items 0 hv]

theorem jsonLookup_dropKey (data : List (String × Json)) (k k2 : String)
    (h : k2 ≠ k) :
    jsonLookup (dropKey k data) k2 = jsonLookup data k2 := by
  induction data with
  | nil => rfl
  | cons kv rest ih =>
    have hstep : dropKey k (kv :: rest) =
        if kv.1 = k then dropKey k rest else kv :: dropKey k rest := by
      unfold dropKey
      rw [List.filter_cons]
      by_cases hk : kv.1 = k
      · simp [hk]
      · simp [hk]
    rw [hstep]
    by_cases hk : kv.1 = k
    · rw [if_pos hk, ih]
      have hne2 : ¬ kv.1 = k2 := fun hh => h (hh ▸ hk)
      show _ = if kv.1 = k2 then some kv.2 else jsonLookup rest k2
      rw [if_neg hne2]
    · rw [if_neg hk]
      show (if kv.1 = k2 then some kv.2 else jsonLookup (dropKey k rest) k2) =
        if kv.1 = k2 then some kv.2 else jsonLookup rest k2
      rw [ih]

theorem finalScore_bounds (query : String) (row : ProductRow) :
    0 ≤ finalScoreWith fuzzPartialRatio query row ∧
    finalScoreWith fuzzPartialRatio query row ≤ 100 := by
  unfold finalScoreWith
  set d := fuzzPartialRatio (strLower query) (strLower row.descripcion) with hd
  set s := fuzzPartialRatio (strLower query) (strLower row.segmento) with hs
  have hd0 : 0 ≤ d := fuzzPartialRatio_nonneg _ _
  have hd1 : d ≤ 100 := fuzzPartialRatio_le_100 _ _
  have hs0 : 0 ≤ s := fuzzPartialRatio_nonneg _ _
  have hs1 : s ≤ 100 := fuzzPartialRatio_le_100 _ _
  by_cases hb : (80 : ℚ) ≤ s
  · rw [if_pos hb]
    constructor
    · refine le_min (by norm_num) ?_
      have : (0 : ℚ) ≤ max d s := le_trans hd0 (le_max_left _ _)
      linarith
    · exact min_le_left _ _
  · rw [if_neg hb]
    exact ⟨le_trans hd0 (le_max_left _ _), max_le hd1 hs1⟩

/-- C1: for every query and every catalog row surviving the segment filter,
the engine computes descScore and segScore by applying the scorer to the
lowered query and the lowered description resp. segment, sets finalScore to
their max boosted by 10 and capped at 100 exactly when segScore is at least
80, and keeps the row (as a result carrying finalScore) if and only if
finalScore reaches min_score; `search_products` defaults the threshold
to 90. -/
theorem c1_boost_threshold_keep (sc : String → String → ℚ) (df : List ProductRow)
    (query : String) (segmento : Option String) (ms : ℚ) (res : List MatchResult)
    (hres : searchProductsWith sc (some df) query segmento ms = Except.ok res)
    (row : ProductRow) (hrow : row ∈ segmentFiltered df segmento)
    (descScore segScore finalScore : ℚ)
    (hdesc : descScore = sc (strLower query) (strLower row.descripcion))
    (hseg : segScore = sc (strLower query) (strLower row.segmento))
    (hfinal : finalScore = if 80 ≤ segScore then min 100 (max descScore segScore + 10)
      else max descScore segScore) :
    (searchProducts (some df) query segmento =
      searchProductsWith fuzzPartialRatio (some df) query segmento 90) ∧
    (mkResult row finalScore ∈ res ↔ ms ≤ finalScore) := by
  subst hdesc
  subst hseg
  subst hfinal
  refine ⟨rfl, ?_⟩
  have hfe : (if 80 ≤ sc (strLower query) (strLower row.segmento) then
      min 100 (max (sc (strLower query) (strLower row.descripcion))
        (sc (strLower query) (strLower row.segmento)) + 10)
      else max (sc (strLower query) (strLower row.descripcion))
        (sc (strLower query) (strLower row.segmento))) = finalScoreWith sc query row := rfl
  rw [hfe]
  rw [searchProductsWith_some] at hres
  by_cases hb : (segTruthy segmento && (segmentFiltered df segmento).isEmpty) = true
  · rw [if_pos hb] at hres
    have hb2 := hb
    simp only [Bool.and_eq_true] at hb2
    have hemp := hb2.2
    have hnil : segmentFiltered df segmento = [] := by
      revert hemp
      cases segmentFiltered df segmento with
      | nil => intro _; rfl
      | cons a l => intro hemp; simp [List.isEmpty] at hemp
    rw [hnil] at hrow
    cases hrow
  · rw [if_neg hb] at hres
    have hres2 := Except.ok.inj hres
    rw [← hres2, (sortByScoreDesc_perm _).mem_iff, mem_keptRowsWith]
    constructor
    · rintro ⟨row2, hrow2, hc2, heq⟩
      have hsc := congrArg MatchResult.score heq
      simp only [mkResult_score] at hsc
      rw [hsc]
      exact hc2
    · intro hc2
      exact ⟨row, hrow, hc2, rfl⟩

theorem c1_boost_threshold_keep_witness :
    searchProductsWith scW (some [rowW]) "a" none 90 = Except.ok [mkResult rowW 100] ∧
    rowW ∈ segmentFiltered [rowW] none ∧
    ((searchProducts (some [rowW]) "a" none =
        searchProductsWith fuzzPartialRatio (some [rowW]) "a" none 90) ∧
      (mkResult rowW 100 ∈ [mkResult rowW 100] ↔ (90 : ℚ) ≤ 100)) := by
  refine ⟨by with_unfolding_all rfl, List.mem_cons_self _ _, ?_⟩
  exact c1_boost_threshold_keep scW [rowW] "a" none 90 [mkResult rowW 100]
    (by with_unfolding_all rfl) rowW (List.mem_cons_self _ _) 95 95 100 rfl rfl
    (by with_unfolding_all rfl)

/-- C2: with a (truthy) segment filter, only rows whose segment equals the
filter case-insensitively are considered — every returned result's segment
matches — and if no catalog row has that segment the result is the empty
list. -/
theorem c2_segment_filter_only (sc : String → String → ℚ) (df : List ProductRow)
    (query : String) (s : String) (hs : s ≠ "") (ms : ℚ) (res : List MatchResult)
    (hres : searchProductsWith sc (some df) query (some s) ms = Except.ok res) :
    (∀ r ∈ res, strLower r.segmento = strLower s) ∧
    ((df.filter (fun row => strLower row.segmento == strLower s)).isEmpty = true →
      res = []) := by
  have hsf : segmentFiltered df (some s) =
      df.filter (fun row => strLower row.segmento == strLower s) := by
    show (if (s == "") = true then df
      else df.filter (fun row => strLower row.segmento == strLower s)) = _
    rw [if_neg (by simp [hs])]
  rw [searchProductsWith_some] at hres
  by_cases hb : (segTruthy (some s) && (segmentFiltered df (some s)).isEmpty) = true
  · rw [if_pos hb] at hres
    have hres2 : ([] : List MatchResult) = res := Except.ok.inj hres
    rw [← hres2]
    exact ⟨fun r hr => absurd hr (List.not_mem_nil r), fun _ => rfl⟩
  · rw [if_neg hb] at hres
    have hres2 := Except.ok.inj hres
    constructor
    · intro r hr
      rw [← hres2] at hr
      have hr2 := (sortByScoreDesc_perm _).mem_iff.mp hr
      obtain ⟨row, hrow, -, rfl⟩ := mem_keptRowsWith.mp hr2
      rw [hsf] at hrow
      have hbeq := (List.mem_filter.mp hrow).2
      exact eq_of_beq hbeq
    · intro hemp
      have hnil : df.filter (fun row => strLower row.segmento == strLower s) = [] := by
        revert hemp
        cases df.filter (fun row => strLower row.segmento == strLower s) with
        | nil => intro _; rfl
        | cons a l => intro hemp; simp [List.isEmpty] at hemp
      rw [← hres2, hsf, hnil]
      rfl

theorem c2_segment_filter_only_witness :
    ("B" : String) ≠ "" ∧
    searchProductsWith scW (some [rowW]) "a" (some "B") 90 =
      Except.ok [mkResult rowW 100] ∧
    ((∀ r ∈ [mkResult rowW 100], strLower r.segmento = strLower "B") ∧
      (([rowW].filter (fun row => strLower row.segmento == strLower "B")).isEmpty = true →
        [mkResult rowW 100] = ([] : List MatchResult))) := by
  refine ⟨by decide, by with_unfolding_all rfl, ?_⟩
  exact c2_segment_filter_only scW [rowW] "a" "B" (by decide) 90 [mkResult rowW 100]
    (by with_unfolding_all rfl)

/-- C3: every result sequence of the engine is sorted by score descending
(each adjacent pair satisfies `result[i].score >= result[i+1].score`), and
results of equal score keep their original catalog order: filtering the
result to any fixed score gives exactly the kept rows of that score in
catalog order. -/
theorem c3_sorted_and_stable (sc : String → String → ℚ) (df : List ProductRow)
    (query : String) (segmento : Option String) (ms : ℚ) (res : List MatchResult)
    (hres : searchProductsWith sc (some df) query segmento ms = Except.ok res) :
    res.Pairwise (fun a b => b.score ≤ a.score) ∧
    ∀ s : ℚ, res.filter (fun r => decide (r.score = s)) =
      (keptRowsWith sc query ms (segmentFiltered df segmento)).filter
        (fun r => decide (r.score = s)) := by
  rw [searchProductsWith_some] at hres
  by_cases hb : (segTruthy segmento && (segmentFiltered df segmento).isEmpty) = true
  · rw [if_pos hb] at hres
    have hres2 : ([] : List MatchResult) = res := Except.ok.inj hres
    have hb2 := hb
    simp only [Bool.and_eq_true] at hb2
    have hemp := hb2.2
    have hnil : segmentFiltered df segmento = [] := by
      revert hemp
      cases segmentFiltered df segmento with
      | nil => intro _; rfl
      | cons a l => intro hemp; simp [List.isEmpty] at hemp
    rw [← hres2, hnil]
    exact ⟨List.Pairwise.nil, fun s => rfl⟩
  · rw [if_neg hb] at hres
    have hres2 := Except.ok.inj hres
    rw [← hres2]
    exact ⟨sortByScoreDesc_sorted _, fun s => sortByScoreDesc_stable s _⟩

theorem c3_sorted_and_stable_witness :
    searchProductsWith scW (some [rowW]) "a" none 90 = Except.ok [mkResult rowW 100] ∧
    List.Pairwise (fun a b => b.score ≤ a.score) [mkResult rowW 100] ∧
    [mkResult rowW 100].filter (fun r => decide (r.score = 100)) =
      (keptRowsWith scW "a" 90 (segmentFiltered [rowW] none)).filter
        (fun r => decide (r.score = 100)) := by
  have h := c3_sorted_and_stable scW [rowW] "a" none 90 [mkResult rowW 100]
    (by with_unfolding_all rfl)
  exact ⟨by with_unfolding_all rfl, h.1, h.2 100⟩

/-- C4: for a multi-query request of valid items against a loaded catalog,
the combined list is exactly the concatenation of the per-item result
lists, deduplicated by description keeping the first occurrence in
concatenation order, re-sorted by score descending — and no two entries of
the combined list share a description. -/
theorem c4_combined_dedup (df : List ProductRow) (items : List Json)
    (hne : items ≠ []) (hv : ∀ it ∈ items, itemValid it = true) :
    cotizar (some df) [("consultas", Json.arr items)] =
      (200, Json.obj [("consultas_procesadas",
          Json.arr (items.map (fun it => itemInfo df it))),
        ("resultados_combinados", Json.arr ((sortByScoreDesc (dedupByDescription
          ((items.map (fun it => itemSearch df it)).flatten))).map resultJson)),
        ("total_consultas", Json.num (items.length : ℚ)),
        ("total_encontrados_combinados", Json.num ((sortByScoreDesc (dedupByDescription
          ((items.map (fun it => itemSearch df it)).flatten))).length : ℚ))]) ∧
    (sortByScoreDesc (dedupByDescription
        ((items.map (fun it => itemSearch df it)).flatten))).Pairwise
      (fun a b => a.descripcion ≠ b.descripcion) := by
  refine ⟨?_, sortByScoreDesc_pairwise_ne _ (dedupByDescription_pairwise _)⟩
  exact cotizar_multi_mode df [("consultas", Json.arr items)] items rfl rfl hne hv

theorem c4_combined_dedup_witness :
    itemsW ≠ [] ∧ (∀ it ∈ itemsW, itemValid it = true) ∧
    (cotizar (some [rowW]) [("consultas", Json.arr itemsW)] =
      (200, Json.obj [("consultas_procesadas",
          Json.arr (itemsW.map (fun it => itemInfo [rowW] it))),
        ("resultados_combinados", Json.arr ((sortByScoreDesc (dedupByDescription
          ((itemsW.map (fun it => itemSearch [rowW] it)).flatten))).map resultJson)),
        ("total_consultas", Json.num (itemsW.length : ℚ)),
        ("total_encontrados_combinados", Json.num ((sortByScoreDesc (dedupByDescription
          ((itemsW.map (fun it => itemSearch [rowW] it)).flatten))).length : ℚ))]) ∧
      (sortByScoreDesc (dedupByDescription
          ((itemsW.map (fun it => itemSearch [rowW] it)).flatten))).Pairwise
        (fun a b => a.descripcion ≠ b.descripcion)) := by
  have hne : itemsW ≠ [] := by
    intro h
    cases h
  have hv : ∀ it ∈ itemsW, itemValid it = true := by
    intro it hit
    have hit2 : it ∈ [Json.obj [("consulta", Json.str "a")],
        Json.obj [("consulta", Json.str "a")]] := hit
    rcases List.mem_cons.mp hit2 with rfl | h3
    · rfl
    · rcases List.mem_cons.mp h3 with rfl | h4
      · rfl
      · cases h4
  exact ⟨hne, hv, c4_combined_dedup [rowW] itemsW hne hv⟩

/-- C5: a body whose `consulta` lookup succeeds and validates yields the
flat shape {consulta, resultados, total_encontrados} plus
`segmento_filtrado` exactly when a truthy segment was sent; a body with no
`consulta` but a valid `consultas` list — even of length one — yields the
nested shape {consultas_procesadas, resultados_combinados, total_consultas,
total_encontrados_combinados}. -/
theorem c5_dual_shape (df : List ProductRow) (data : List (String × Json)) :
    (∀ c : Json, jsonLookup data "consulta" = some c → isValidConsulta c = true →
      isValidSegmento (pyGet data "segmento") = true →
      (cotizar (some df) data).1 = 200 ∧
      jsonKeys (cotizar (some df) data).2 =
        ["consulta", "resultados", "total_encontrados"] ++
          (if pyTruthy (pyGet data "segmento") then ["segmento_filtrado"] else [])) ∧
    (∀ items : List Json, jsonLookup data "consulta" = none →
      jsonLookup data "consultas" = some (Json.arr items) → items ≠ [] →
      (∀ it ∈ items, itemValid it = true) →
      (cotizar (some df) data).1 = 200 ∧
      jsonKeys (cotizar (some df) data).2 =
        ["consultas_procesadas", "resultados_combinados", "total_consultas",
          "total_encontrados_combinados"]) := by
  constructor
  · intro c hc hvc hvs
    exact cotizar_single_mode df data c hc hvc hvs
  · intro items h1 h2 hne hv
    rw [cotizar_multi_mode df data items h1 h2 hne hv]
    exact ⟨rfl, rfl⟩

theorem c5_dual_shape_witness :
    jsonLookup [("consulta", Json.str "a"), ("segmento", Json.str "b")] "consulta" =
      some (Json.str "a") ∧
    ((cotizar (some [rowW]) [("consulta", Json.str "a"), ("segmento", Json.str "b")]).1 =
        200 ∧
      jsonKeys (cotizar (some [rowW]) [("consulta", Json.str "a"),
          ("segmento", Json.str "b")]).2 =
        ["consulta", "resultados", "total_encontrados"] ++
          (if pyTruthy (pyGet [("consulta", Json.str "a"), ("segmento", Json.str "b")]
            "segmento") then ["segmento_filtrado"] else [])) ∧
    ((cotizar (some [rowW]) [("consultas", Json.arr [Json.obj [("consulta",
          Json.str "a")]])]).1 = 200 ∧
      jsonKeys (cotizar (some [rowW]) [("consultas", Json.arr [Json.obj [("consulta",
          Json.str "a")]])]).2 =
        ["consultas_procesadas", "resultados_combinados", "total_consultas",
          "total_encontrados_combinados"]) := by
  have hv1 : ∀ it ∈ [Json.obj [("consulta", Json.str "a")]], itemValid it = true := by
    intro it hit
    rcases List.mem_cons.mp hit with rfl | h4
    · rfl
    · cases h4
  refine ⟨rfl, ?_, ?_⟩
  · exact (c5_dual_shape [rowW] _).1 (Json.str "a") rfl rfl rfl
  · exact (c5_dual_shape [rowW] _).2 [Json.obj [("consulta", Json.str "a")]] rfl rfl
      (List.cons_ne_nil _ _) hv1

/-- C6 is refuted as stated: validation is not all performed before
matching work. With the catalog unloaded, the batch
[ {consulta: "x"}, {} ] — whose second item is invalid (missing
`consulta`) — is answered by the 500 data error raised while searching the
valid first item, not by the 400 validation failure naming item 2: the
loop searches item 1 before it ever validates item 2. -/
theorem c6_abort_counterexample :
    cotizar none [("consultas", Json.arr [Json.obj [("consulta", Json.str "x")],
        Json.obj []])] =
      (500, errBody "Data error: Products not loaded") ∧
    (cotizar none [("consultas", Json.arr [Json.obj [("consulta", Json.str "x")],
        Json.obj []])]).1 ≠ 400 := by
  have h : cotizar none [("consultas", Json.arr [Json.obj [("consulta", Json.str "x")],
      Json.obj []])] = (500, errBody "Data error: Products not loaded") := by
    with_unfolding_all rfl
  refine ⟨h, ?_⟩
  rw [h]
  decide

/-- C6 (amended): items are validated in order, interleaved with matching:
each valid item is searched before the next item is looked at. The first
invalid item aborts the whole batch with a 400 validation failure whose
message names the item's 1-based position, and no results appear in the
response; but matching work for the valid items preceding it has already
been performed (and with the catalog unloaded, the preceding item's search
failure preempts the validation error, as the counterexample shows). -/
theorem c6_abort_amended (df : List ProductRow) (pre : List Json) (bad : Json)
    (rest : List Json) (hpre : ∀ it ∈ pre, itemValid it = true)
    (hbad : itemValid bad = false) :
    cotizar (some df) [("consultas", Json.arr (pre ++ bad :: rest))] =
      (400, errBody (itemErrorMsg pre.length bad)) := by
  have hemp : (pre ++ bad :: rest).isEmpty = false := by
    cases pre with
    | nil => rfl
    | cons a l => rfl
  have hp := processItems_append_invalid df pre 0 bad rest hpre hbad
  simp only [Nat.zero_add] at hp
  have h1 : jsonLookup [("consultas", Json.arr (pre ++ bad :: rest))] "consulta" =
      none := rfl
  have h2 : jsonLookup [("consultas", Json.arr (pre ++ bad :: rest))] "consultas" =
      some (Json.arr (pre ++ bad :: rest)) := rfl
  simp only [cotizar, h1, h2, hemp, Bool.false_eq_true, if_false, hp]

theorem c6_abort_amended_witness :
    (∀ it ∈ [Json.obj [("consulta", Json.str "a")]], itemValid it = true) ∧
    itemValid (Json.obj []) = false ∧
    cotizar (some [rowW]) [("consultas",
        Json.arr ([Json.obj [("consulta", Json.str "a")]] ++ Json.obj [] :: []))] =
      (400, errBody (itemErrorMsg (List.length [Json.obj [("consulta", Json.str "a")]])
        (Json.obj []))) := by
  have hpre : ∀ it ∈ [Json.obj [("consulta", Json.str "a")]], itemValid it = true := by
    intro it hit
    rcases List.mem_cons.mp hit with rfl | h4
    · rfl
    · cases h4
  exact ⟨hpre, rfl, c6_abort_amended [rowW] [Json.obj [("consulta", Json.str "a")]]
    (Json.obj []) [] hpre rfl⟩

/-- C7: while the catalog is unloaded, search_products fails with the
"Products not loaded" error, and /cotizar with otherwise valid input — in
either call shape — returns the 500 data-error response, not a client
error. -/
theorem c7_data_unavailable :
    (∀ (query : String) (segmento : Option String) (ms : ℚ),
      searchProducts none query segmento ms = Except.error "Products not loaded") ∧
    (∀ (data : List (String × Json)) (c : Json),
      jsonLookup data "consulta" = some c → isValidConsulta c = true →
      isValidSegmento (pyGet data "segmento") = true →
      cotizar none data = (500, errBody "Data error: Products not loaded")) ∧
    (∀ (data : List (String × Json)) (item : Json) (rest : List Json),
      jsonLookup data "consulta" = none →
      jsonLookup data "consultas" = some (Json.arr (item :: rest)) →
      itemValid item = true →
      cotizar none data = (500, errBody "Data error: Products not loaded")) := by
  refine ⟨fun q seg ms => rfl, ?_, ?_⟩
  · intro data c hc hvc hvs
    have hse : searchProducts none (strStrip (jsonStrVal c))
        (segArg (pyGet data "segmento")) 90 = Except.error "Products not loaded" := rfl
    simp only [cotizar, hc, hvc, hvs, if_true, hse]
    rfl
  · intro data item rest h1 h2 hvi
    cases item with
    | obj fields =>
      cases hl : jsonLookup fields "consulta" with
      | none => simp [itemValid, hl] at hvi
      | some c =>
        have hcs : isValidConsulta c = true ∧
            isValidSegmento (pyGet fields "segmento") = true := by
          simpa [itemValid, hl, Bool.and_eq_true] using hvi
        obtain ⟨hc, hs⟩ := hcs
        have hse : searchProducts none (strStrip (jsonStrVal c))
            (segArg (pyGet fields "segmento")) 90 =
          Except.error "Products not loaded" := rfl
        have hemp : (Json.obj fields :: rest).isEmpty = false := rfl
        simp only [cotizar, h1, h2, hemp, Bool.false_eq_true, if_false, processItems,
          hl, hc, hs, if_true, hse]
        rfl
    | null => simp [itemValid] at hvi
    | bool b => simp [itemValid] at hvi
    | num q => simp [itemValid] at hvi
    | str s => simp [itemValid] at hvi
    | arr xs => simp [itemValid] at hvi

theorem c7_data_unavailable_witness :
    searchProducts none "a" none 90 = Except.error "Products not loaded" ∧
    jsonLookup [("consulta", Json.str "a")] "consulta" = some (Json.str "a") ∧
    isValidConsulta (Json.str "a") = true ∧
    cotizar none [("consulta", Json.str "a")] =
      (500, errBody "Data error: Products not loaded") := by
  have h := c7_data_unavailable
  exact ⟨h.1 "a" none 90, rfl, rfl,
    h.2.1 [("consulta", Json.str "a")] (Json.str "a") rfl rfl rfl⟩

/-- C8 is refuted as stated: the scorer does not always return an integer.
On the pair ("ab", "ba") both passes align a single-character overhang
("ab" against "a" or "b"), giving the exact rational 200/3 — rapidfuzz
returns it as the float 66.666… — whose reduced denominator is 3, so the
value is not an integer. (On ("abc", "abd") the boundary alignment against
the prefix "ab" wins over the full window and the value is the integer 80,
as the last conjunct checks.) -/
theorem c8_integer_counterexample :
    fuzzPartialRatio "ab" "ba" = 200 / 3 ∧
    (fuzzPartialRatio "ab" "ba").den ≠ 1 ∧
    fuzzPartialRatio "abc" "abd" = 80 := by
  have hv : fuzzPartialRatio "ab" "ba" = 200 / 3 := by with_unfolding_all rfl
  have hden : (fuzzPartialRatio "ab" "ba").den = 3 := by with_unfolding_all rfl
  refine ⟨hv, ?_, by with_unfolding_all rfl⟩
  rw [hden]
  decide

/-- C8 (amended): the scorer returns a rational number in [0, 100] for
every pair of strings, and the score of every MatchResult produced by
search_products lies in [0, 100]. -/
theorem c8_score_range (a b : String) (df : List ProductRow) (query : String)
    (segmento : Option String) (ms : ℚ) (res : List MatchResult)
    (hres : searchProducts (some df) query segmento ms = Except.ok res) :
    (0 ≤ fuzzPartialRatio a b ∧ fuzzPartialRatio a b ≤ 100) ∧
    ∀ r ∈ res, 0 ≤ r.score ∧ r.score ≤ 100 := by
  refine ⟨⟨fuzzPartialRatio_nonneg a b, fuzzPartialRatio_le_100 a b⟩, ?_⟩
  intro r hr
  unfold searchProducts at hres
  rw [searchProductsWith_some] at hres
  by_cases hb : (segTruthy segmento && (segmentFiltered df segmento).isEmpty) = true
  · rw [if_pos hb] at hres
    have hres2 : ([] : List MatchResult) = res := Except.ok.inj hres
    rw [← hres2] at hr
    cases hr
  · rw [if_neg hb] at hres
    have hres2 := Except.ok.inj hres
    rw [← hres2] at hr
    obtain ⟨row, -, -, rfl⟩ :=
      mem_keptRowsWith.mp ((sortByScoreDesc_perm _).mem_iff.mp hr)
    exact finalScore_bounds query row

theorem c8_score_range_witness :
    searchProducts (some [rowW]) "a" none 90 = Except.ok [mkResult rowW 100] ∧
    ((0 ≤ fuzzPartialRatio "abc" "abd" ∧ fuzzPartialRatio "abc" "abd" ≤ 100) ∧
      ∀ r ∈ [mkResult rowW 100], 0 ≤ r.score ∧ r.score ≤ 100) := by
  refine ⟨by with_unfolding_all rfl, ?_⟩
  exact c8_score_range "abc" "abd" [rowW] "a" none 90 [mkResult rowW 100]
    (by with_unfolding_all rfl)

/-- C9: the similarity scorer is symmetric in its two arguments: for
unequal lengths both orders run the impl with the shorter string as the
needle, and for equal lengths the result is the maximum of the two
swapped passes (with 100 short-circuiting the second pass, which cannot
exceed it). -/
theorem c9_scorer_symmetric (a b : String) :
    fuzzPartialRatio a b = fuzzPartialRatio b a :=
  fuzzPartialRatio_symm a b

/-- C10: a body carrying both `consulta` and `consultas` is handled in
single-query mode: the response is identical to that for the same body with
every `consultas` binding removed (the list is ignored entirely), and when
the single query validates against a loaded catalog the response has the
flat shape. -/
theorem c10_consulta_precedence (products : Option (List ProductRow))
    (data : List (String × Json)) (c : Json)
    (hc : jsonLookup data "consulta" = some c) :
    cotizar products data = cotizar products (dropKey "consultas" data) ∧
    (∀ df : List ProductRow, products = some df → isValidConsulta c = true →
      isValidSegmento (pyGet data "segmento") = true →
      jsonKeys (cotizar products data).2 =
        ["consulta", "resultados", "total_encontrados"] ++
          (if pyTruthy (pyGet data "segmento") then ["segmento_filtrado"] else [])) := by
  have hcd : jsonLookup (dropKey "consultas" data) "consulta" = some c := by
    rw [jsonLookup_dropKey data "consultas" "consulta" (by decide)]
    exact hc
  have hsd : pyGet (dropKey "consultas" data) "segmento" = pyGet data "segmento" := by
    unfold pyGet
    rw [jsonLookup_dropKey data "consultas" "segmento" (by decide)]
  constructor
  · simp only [cotizar, hc, hcd, hsd]
  · intro df hdf hvc hvs
    subst hdf
    exact (cotizar_single_mode df data c hc hvc hvs).2

theorem c10_consulta_precedence_witness :
    jsonLookup dataW10 "consulta" = some (Json.str "a") ∧
    cotizar (some [rowW]) dataW10 = cotizar (some [rowW]) (dropKey "consultas" dataW10) ∧
    jsonKeys (cotizar (some [rowW]) dataW10).2 =
      ["consulta", "resultados", "total_encontrados"] ++
        (if pyTruthy (pyGet dataW10 "segmento") then ["segmento_filtrado"] else []) := by
  have h := c10_consulta_precedence (some [rowW]) dataW10 (Json.str "a") rfl
  exact ⟨rfl, h.1, h.2 [rowW] rfl rfl rfl⟩
